import Mathlib

/-!
Shallow embedding of the hexagonal presence index and the spatial analytics
engine of the TapIn address service, together with proofs about the
behaviour its specification claims.

Sources embedded here:
- src/address/src/hex_models.py           (ORM records HexCell, UserHexLocation, HexLandmark)
- src/address/src/services/hex_service.py (HexagonalLocationService)
- src/address/src/api/hex_routes.py       (join_neighborhood_chat route)
- src/address/src/services/spatial_service.py (SpatialAnalysisService)

Modelling conventions:
- Machine floats are modelled as rationals; times as natural numbers.
- The external h3 grid primitive, the shapely/geopandas geometry engine,
  the EPSG:3857 projection and the sklearn DBSCAN labelling are opaque
  collaborators; each is passed in as a bundle of functions, exactly as the
  Python code treats them (it never looks inside them).
- The SQLAlchemy session is the Store record; sessions are created with
  autoflush=False (src/address/src/database_sync.py), so a query issued
  while an insert is pending does NOT see the pending row.  The count
  query inside join_hex_chat therefore counts the rows present before the
  insert, which the code then compensates with +1.
-/

namespace TapIn

/-- Default resolution for neighborhood chats (hex_service.py, DEFAULT_RESOLUTION = 8). -/
def DEFAULT_RESOLUTION : Int := 8

/-- The external h3 grid primitive as used by hex_service.py: an opaque
bundle of pure functions (latlng_to_cell, cell_to_latlng, get_resolution,
grid_disk, great_circle_distance).  Coordinates are (lat, lng) pairs, as in
the h3 Python API. -/
structure H3Grid where
  latlng_to_cell : ℚ → ℚ → Int → String
  cell_to_latlng : String → ℚ × ℚ
  get_resolution : String → Int
  grid_disk : String → Nat → List String
  great_circle_distance : ℚ × ℚ → ℚ × ℚ → ℚ

/-- ORM record HexCell (hex_models.py).  The DB-managed created_at and
updated_at timestamp columns are elided: no embedded operation reads them.
last_activity is not a mapped column; it is the plain Python instance
attribute that join_hex_chat assigns (hex_service.py line 76). -/
structure HexCell where
  h3_index : String
  resolution : Int
  center_lat : ℚ
  center_lng : ℚ
  display_name : Option String := none
  locality : Option String := none
  active_users : Int := 0
  last_activity : Option Nat := none
deriving DecidableEq, Repr

/-- ORM record UserHexLocation (hex_models.py).  Its mapped columns are id,
user_id, h3_index, joined_at, last_active (see also alembic revision 001);
the autoincrement id is elided.  last_seen is NOT a mapped column: it is the
plain Python instance attribute that join_hex_chat assigns on a repeat join
(hex_service.py line 73), absent (none) until then. -/
structure UserHexLocation where
  user_id : String
  h3_index : String
  joined_at : Nat
  last_active : Nat
  last_seen : Option Nat := none
deriving DecidableEq, Repr

/-- ORM record HexLandmark (hex_models.py); only the fields read by
generate_hex_name are kept. -/
structure HexLandmark where
  h3_index : String
  name : String
deriving DecidableEq, Repr

/-- The relational store behind the presence index: the three hex tables. -/
structure Store where
  cells : List HexCell
  occupancies : List UserHexLocation
  landmarks : List HexLandmark
deriving DecidableEq, Repr

/-- Mapped columns of the UserHexLocation model (hex_models.py lines 27-37,
matching alembic revision 001_create_hex_tables.py). -/
def userHexLocationColumns : List String :=
  ["id", "user_id", "h3_index", "joined_at", "last_active"]

/-- The class attribute cleanup_inactive_users filters and deletes on
(hex_service.py lines 125 and 137: UserHexLocation.last_seen). -/
def cleanupFilterAttribute : String := "last_seen"

/-- db.query(HexCell).filter_by(h3_index=...).first() -/
def findCell (s : Store) (h3_index : String) : Option HexCell :=
  s.cells.find? (fun c => c.h3_index == h3_index)

/-- db.query(UserHexLocation).filter_by(user_id=..., h3_index=...).first() -/
def findOcc (s : Store) (user_id h3_index : String) : Option UserHexLocation :=
  s.occupancies.find? (fun o => o.user_id == user_id && o.h3_index == h3_index)

/-- db.query(UserHexLocation).filter_by(h3_index=...).count() -/
def occCount (s : Store) (h3_index : String) : Nat :=
  (s.occupancies.filter (fun o => o.h3_index == h3_index)).length

/-- Commit of an ORM mutation of the (unique, by primary key) cell row. -/
def updateCell (cs : List HexCell) (h3_index : String) (c2 : HexCell) : List HexCell :=
  cs.map (fun c => if c.h3_index == h3_index then c2 else c)

/-- Commit of an ORM mutation of the (unique, by unique constraint)
occupancy row of a (user, cell) pair. -/
def updateOcc (os : List UserHexLocation) (user_id h3_index : String)
    (o2 : UserHexLocation) : List UserHexLocation :=
  os.map (fun o => if o.user_id == user_id && o.h3_index == h3_index then o2 else o)

/-- The active_users value stored for a cell id, 0 when the cell row does
not exist. -/
def cellActive (s : Store) (h3_index : String) : Int :=
  match findCell s h3_index with
  | some c => c.active_users
  | none => 0

/-- HexagonalLocationService.get_hex_for_location: converts coordinates to
an H3 index by delegating to the grid primitive.  It performs no validation
of the resolution. -/
def get_hex_for_location (g : H3Grid) (lat lng : ℚ) (resolution : Int) : String :=
  g.latlng_to_cell lat lng resolution

/-- HexagonalLocationService._generate_hex_name. -/
def generate_hex_name (g : H3Grid) (s : Store) (h3_index : String) : String :=
  match s.landmarks.filter (fun l => l.h3_index == h3_index) with
  | l :: _ => l.name ++ " Area"
  | [] =>
    let resolution := g.get_resolution h3_index
    if resolution ≤ 7 then "District Chat"
    else if resolution == 8 then "Neighborhood Chat"
    else if resolution ≥ 9 then "Local Chat"
    else "Area " ++ h3_index.take 6

/-- HexagonalLocationService.get_or_create_hex_cell.  On creation the code
also calls _create_neighbor_relationships, whose body stores nothing (its
loop ends in pass), so it has no effect on the store. -/
def get_or_create_hex_cell (g : H3Grid) (s : Store) (lat lng : ℚ) (resolution : Int) :
    HexCell × Store :=
  let h3_index := get_hex_for_location g lat lng resolution
  match findCell s h3_index with
  | some hex_cell => (hex_cell, s)
  | none =>
    let center := g.cell_to_latlng h3_index
    let hex_cell : HexCell :=
      { h3_index := h3_index
        resolution := resolution
        center_lat := center.1
        center_lng := center.2
        display_name := some (generate_hex_name g s h3_index)
        locality := none
        active_users := 0
        last_activity := none }
    (hex_cell, { s with cells := s.cells ++ [hex_cell] })

/-- HexagonalLocationService.join_hex_chat, up to the committed store and the
mutated cell row.  The serialized response assembly (_build_join_response)
reads but does not mutate the store and is modelled separately through
get_active_neighbors.  The count query runs after db.add but with
autoflush=False, so it does not see the pending insert; the new occupancy
row becomes visible at commit, hence the append.  In the repeat-join branch
the code assigns user_location.last_seen, a plain instance attribute (the
mapped column is last_active), and in both branches it assigns the cell
instance attribute last_activity. -/
def join_hex_chat (g : H3Grid) (s : Store) (user_id : String) (lat lng : ℚ)
    (resolution : Int) (now : Nat) : HexCell × Store :=
  match get_or_create_hex_cell g s lat lng resolution with
  | (hex_cell, s1) =>
    match findOcc s1 user_id hex_cell.h3_index with
    | none =>
      let occ : UserHexLocation :=
        { user_id := user_id
          h3_index := hex_cell.h3_index
          joined_at := now
          last_active := now
          last_seen := none }
      let hex_cell2 : HexCell :=
        { hex_cell with
            active_users := (occCount s1 hex_cell.h3_index : Int) + 1
            last_activity := some now }
      (hex_cell2,
        { s1 with
            occupancies := s1.occupancies ++ [occ]
            cells := updateCell s1.cells hex_cell.h3_index hex_cell2 })
    | some occ =>
      let occ2 := { occ with last_seen := some now }
      let hex_cell2 := { hex_cell with last_activity := some now }
      (hex_cell2,
        { s1 with
            occupancies := updateOcc s1.occupancies user_id hex_cell.h3_index occ2
            cells := updateCell s1.cells hex_cell.h3_index hex_cell2 })

/-- The store committed by a call of join_hex_chat. -/
def joinState (g : H3Grid) (s : Store) (user_id : String) (lat lng : ℚ)
    (resolution : Int) (now : Nat) : Store :=
  (join_hex_chat g s user_id lat lng resolution now).2

/-- HexagonalLocationService._get_direction (coarse cardinal direction),
with dlat = lat2 - lat1 and dlng = lng2 - lng1 inlined.  Note the strict
comparison: equal absolute deltas fall into the else branch. -/
def get_direction (fromPoint toPoint : ℚ × ℚ) : String :=
  if |toPoint.1 - fromPoint.1| > |toPoint.2 - fromPoint.2| then
    if toPoint.1 - fromPoint.1 > 0 then "north" else "south"
  else
    if toPoint.2 - fromPoint.2 > 0 then "east" else "west"

/-- The direction rule as the specification words it for C9: ties and
diagonals resolve by comparing absolute deltas, with latitude-dominant
comparisons (which the claim takes to include equality) classified as
north/south. -/
def directionSpecC9 (fromPoint toPoint : ℚ × ℚ) : String :=
  if |toPoint.1 - fromPoint.1| ≥ |toPoint.2 - fromPoint.2| then
    if toPoint.1 - fromPoint.1 > 0 then "north" else "south"
  else
    if toPoint.2 - fromPoint.2 > 0 then "east" else "west"

/-- Python round(x, 1) on the kilometre distance (hex_service.py line 108),
modelled as rounding to the nearest tenth. -/
def round1 (q : ℚ) : ℚ := (round (10 * q) : ℤ) / 10

/-- Pydantic record NeighborhoodInfo (hex_models.py). -/
structure NeighborhoodInfo where
  h3_index : String
  name : String
  active_users : Int
  distance_km : ℚ
  direction : String
deriving DecidableEq, Repr

/-- The loop body of get_active_neighbors: the record built for one active
neighbouring cell, given the centre of the queried cell. -/
def mkNeighborInfo (g : H3Grid) (center : ℚ × ℚ) (c : HexCell) : NeighborhoodInfo :=
  let neighbor_center := g.cell_to_latlng c.h3_index
  { h3_index := c.h3_index
    name := c.display_name.getD ("Hex " ++ c.h3_index.take 8)
    active_users := c.active_users
    distance_km := round1 (g.great_circle_distance center neighbor_center)
    direction := get_direction center neighbor_center }

/-- The unsorted neighbor_info list of get_active_neighbors: cells of the
store that lie in the ring disk minus the queried cell and have
active_users > 0, in query (store) order. -/
def neighborInfos (g : H3Grid) (s : Store) (h3_index : String) (rings : Nat) :
    List NeighborhoodInfo :=
  let neighbors := (g.grid_disk h3_index rings).filter (fun n => n != h3_index)
  let active_hexes :=
    s.cells.filter (fun c => neighbors.contains c.h3_index && decide (0 < c.active_users))
  let center := g.cell_to_latlng h3_index
  active_hexes.map (mkNeighborInfo g center)

/-- HexagonalLocationService.get_active_neighbors: the neighbor_info list
sorted by the (rounded) distance_km key.  Python sorted is a stable sort,
as is insertionSort with this reflexive total key relation. -/
def get_active_neighbors (g : H3Grid) (s : Store) (h3_index : String) (rings : Nat) :
    List NeighborhoodInfo :=
  (neighborInfos g s h3_index rings).insertionSort
    (fun a b => a.distance_km ≤ b.distance_km)

/-- The ordering C4 claims for the output of get_active_neighbors: ascending
great-circle distance with ties broken by cell id. -/
def sortedByDistThenId (l : List NeighborhoodInfo) : Prop :=
  l.Pairwise (fun a b =>
    a.distance_km < b.distance_km ∨
      (a.distance_km = b.distance_km ∧ a.h3_index ≤ b.h3_index))

/-- The route handler join_neighborhood_chat (hex_routes.py): the only place
the 6..10 resolution band is enforced; 400 is the HTTP status it raises. -/
def join_neighborhood_chat (g : H3Grid) (s : Store) (lat lng : ℚ)
    (resolution : Int) (now : Nat) : Except Nat (HexCell × Store) :=
  if resolution < 6 ∨ resolution > 10 then Except.error 400
  else Except.ok (join_hex_chat g s "test-user-123" lat lng resolution now)

/-- The resolveCell contract as the specification words it for C5: fail with
InvalidResolution outside the 6..10 band, otherwise delegate to the grid
primitive. -/
def resolveCellSpec (g : H3Grid) (lat lng : ℚ) (resolution : Int) :
    Except String String :=
  if resolution < 6 ∨ resolution > 10 then Except.error "InvalidResolution"
  else Except.ok (g.latlng_to_cell lat lng resolution)

/-! Spatial analytics engine (spatial_service.py). -/

/-- Pydantic record Coordinates (models.py). -/
structure Coordinates where
  latitude : ℚ
  longitude : ℚ
deriving DecidableEq, Repr

/-- Pydantic record LocationResponse (models.py).  Only the fields read by
the embedded spatial operations are kept: the opaque id (stringified by the
service) and the coordinate; the descriptive metadata (place_id, address
strings, components, h3_index, timestamps) is carried along unread by every
embedded operation and is elided. -/
structure LocationResponse where
  id : String
  coordinates : Coordinates
deriving DecidableEq, Repr

/-- Point(loc.coordinates.longitude, loc.coordinates.latitude): the shapely
point of a location, x = longitude, y = latitude
(spatial_service.py locations_to_geodataframe). -/
def toPoint (l : LocationResponse) : ℚ × ℚ :=
  (l.coordinates.longitude, l.coordinates.latitude)

/-- The external planar geometry collaborators of SpatialAnalysisService:
the EPSG:4326 to EPSG:3857 projection and its inverse (geopandas to_crs),
shapely planar distance, MultiPoint centroid and convex-hull area (in the
square units of the projected plane). -/
structure PlanarGeom where
  proj : ℚ × ℚ → ℚ × ℚ
  unproj : ℚ × ℚ → ℚ × ℚ
  dist : ℚ × ℚ → ℚ × ℚ → ℚ
  centroid : List (ℚ × ℚ) → ℚ × ℚ
  hullArea : List (ℚ × ℚ) → ℚ

/-- Pydantic record SpatialCluster (models.py). -/
structure SpatialCluster where
  cluster_id : Int
  centroid : Coordinates
  locations : List LocationResponse
  radius_meters : ℚ
  density : ℚ
deriving DecidableEq, Repr

/-- The gdf cluster column of find_clusters: each location paired with its
DBSCAN label, in input order. -/
def clusterTagged (labels : List Int) (locations : List LocationResponse) :
    List (LocationResponse × Int) :=
  locations.zip labels

/-- The cluster_points rows of one cluster id. -/
def clusterPoints (labels : List Int) (locations : List LocationResponse)
    (cluster_id : Int) : List (LocationResponse × Int) :=
  (clusterTagged labels locations).filter (fun t => t.2 == cluster_id)

/-- The cluster_locations of one cluster id: the locations whose stringified
id occurs among the ids of the cluster points, exactly as the code looks
them up. -/
def clusterMembers (labels : List Int) (locations : List LocationResponse)
    (cluster_id : Int) : List LocationResponse :=
  locations.filter (fun l =>
    ((clusterPoints labels locations cluster_id).map (fun t => t.1.id)).contains l.id)

/-- The loop body of find_clusters: the SpatialCluster record built for one
cluster id (centroid in the projected plane, reprojected; radius as the
maximum distance from the centroid, 0 for no points; density guarded by the
zero-area convention). -/
def mkCluster (geom : PlanarGeom) (labels : List Int)
    (locations : List LocationResponse) (cluster_id : Int) : SpatialCluster :=
  let pts := (clusterPoints labels locations cluster_id).map
    (fun t => geom.proj (toPoint t.1))
  let c := geom.centroid pts
  let distances := pts.map (fun q => geom.dist c q)
  let radius := match distances.max? with
    | some r => r
    | none => 0
  let area_sqkm := geom.hullArea pts / 1000000
  let density := if 0 < area_sqkm
    then ((clusterMembers labels locations cluster_id).length : ℚ) / area_sqkm
    else 0
  let c_latlon := geom.unproj c
  { cluster_id := cluster_id
    centroid := { latitude := c_latlon.2, longitude := c_latlon.1 }
    locations := clusterMembers labels locations cluster_id
    radius_meters := radius
    density := density }

/-- SpatialAnalysisService.find_clusters.  The sklearn DBSCAN fit is the
opaque external labelling: labels is clustering.labels_, one label per
location, -1 denoting noise.  Python iterates set(labels_) in an arbitrary
order; dedup is one such enumeration of the distinct labels. -/
def find_clusters (geom : PlanarGeom) (labels : List Int)
    (locations : List LocationResponse) (eps_meters : ℚ) (min_samples : Nat) :
    List SpatialCluster :=
  if locations.length < min_samples then []
  else
    (labels.dedup.filter (fun cid => cid != -1)).map
      (mkCluster geom labels locations)

/-- DE-9IM classification of a point against a polygon, as decided by the
external shapely/GEOS engine: a point is in the interior, exactly on the
boundary, or in the exterior of the polygon. -/
inductive Region where
  | interior
  | boundary
  | exterior
deriving DecidableEq, Repr

/-- The external shapely/geopandas engine for polygon queries, over an
opaque polygon type. -/
structure GeoEngine (Poly : Type) where
  classify : ℚ × ℚ → Poly → Region

/-- gpd.sjoin(gdf, poly_gdf, predicate=within): for point geometries the
DE-9IM within predicate holds exactly when the point lies in the interior
of the polygon; a point exactly on the boundary is not within. -/
def sjoin_within {Poly : Type} (E : GeoEngine Poly)
    (locations : List LocationResponse) (polygon : Poly) : List LocationResponse :=
  locations.filter (fun l => E.classify (toPoint l) polygon == Region.interior)

/-- SpatialAnalysisService.find_locations_in_polygon: spatial join with the
within predicate, then a lookup of the matching locations by id. -/
def find_locations_in_polygon {Poly : Type} (E : GeoEngine Poly)
    (locations : List LocationResponse) (polygon : Poly) : List LocationResponse :=
  let matching_ids := (sjoin_within E locations polygon).map (fun l => l.id)
  locations.filter (fun l => matching_ids.contains l.id)

/-- pointsInPolygon as the specification words it for C6: the subset whose
coordinate lies within the polygon, boundary treated as inside. -/
def pointsInPolygonSpec {Poly : Type} (E : GeoEngine Poly)
    (locations : List LocationResponse) (polygon : Poly) : List LocationResponse :=
  locations.filter (fun l => E.classify (toPoint l) polygon != Region.exterior)

/-- SpatialAnalysisService.find_nearest_neighbors: project target and
locations to planar meters, compute distances, take the k rows smallest by
distance (pandas nsmallest with its default keep=first, i.e. the k head
rows of the stable ascending sort), and look the location of each row up by
its id. -/
def find_nearest_neighbors (geom : PlanarGeom) (target : Coordinates)
    (locations : List LocationResponse) (k : Nat) :
    List (LocationResponse × ℚ) :=
  if locations = [] then []
  else
    let target_projected := geom.proj (target.longitude, target.latitude)
    let rows := locations.map (fun l =>
      (l, geom.dist (geom.proj (toPoint l)) target_projected))
    let nearest := (rows.insertionSort (fun a b => a.2 ≤ b.2)).take k
    nearest.map (fun row =>
      ((locations.find? (fun l => l.id == row.1.id)).getD row.1, row.2))

/-- The rows variable inside find_nearest_neighbors: each location paired
with its projected distance to the projected target, in input order. -/
def nnRows (geom : PlanarGeom) (target : Coordinates)
    (locations : List LocationResponse) : List (LocationResponse × ℚ) :=
  locations.map (fun l =>
    (l, geom.dist (geom.proj (toPoint l))
      (geom.proj (target.longitude, target.latitude))))

/-- The stable ascending ordering of the rows by distance, of which pandas
nsmallest (keep=first) returns the k head rows. -/
def nnSorted (geom : PlanarGeom) (target : Coordinates)
    (locations : List LocationResponse) : List (LocationResponse × ℚ) :=
  (nnRows geom target locations).insertionSort (fun a b => a.2 ≤ b.2)

/-- The result record of calculate_spatial_statistics.  The Python function
returns a dict; spatial_distribution is an Option because the empty-input
branch returns a dict without that key. -/
structure SpatialStats where
  total_locations : Nat
  coverage_area_sqkm : ℚ
  density_per_sqkm : ℚ
  mean_nearest_neighbor_distance : ℚ
  spatial_distribution : Option String
deriving DecidableEq, Repr

/-- The projected points of the statistics input, in input order. -/
def statsPoints (geom : PlanarGeom) (locations : List LocationResponse) :
    List (ℚ × ℚ) :=
  locations.map (fun l => geom.proj (toPoint l))

/-- The convex-hull coverage area in km² (hull area in m² over 10⁶). -/
def statsAreaSqkm (geom : PlanarGeom) (locations : List LocationResponse) : ℚ :=
  geom.hullArea (statsPoints geom locations) / 1000000

/-- The nearest-neighbor distances: for each indexed row, the minimum
projected distance to the rows of different index; a row with no other rows
contributes nothing. -/
def statsDistances (geom : PlanarGeom) (locations : List LocationResponse) :
    List ℚ :=
  (statsPoints geom locations).enum.filterMap (fun ip =>
    (((statsPoints geom locations).enum.filter (fun jp => jp.1 != ip.1)).map
      (fun jp => geom.dist jp.2 ip.2)).min?)

/-- np.mean of the distances, guarded by the if distances else 0 fallback. -/
def statsMeanNN (geom : PlanarGeom) (locations : List LocationResponse) : ℚ :=
  if statsDistances geom locations = [] then 0
  else (statsDistances geom locations).sum
    / ((statsDistances geom locations).length : ℚ)

/-- SpatialAnalysisService.calculate_spatial_statistics. -/
def calculate_spatial_statistics (geom : PlanarGeom)
    (locations : List LocationResponse) : SpatialStats :=
  if locations = [] then
    { total_locations := 0
      coverage_area_sqkm := 0
      density_per_sqkm := 0
      mean_nearest_neighbor_distance := 0
      spatial_distribution := none }
  else
    { total_locations := locations.length
      coverage_area_sqkm := statsAreaSqkm geom locations
      density_per_sqkm :=
        if 0 < statsAreaSqkm geom locations
          then (locations.length : ℚ) / statsAreaSqkm geom locations
          else 0
      mean_nearest_neighbor_distance := statsMeanNN geom locations
      spatial_distribution :=
        some (if statsMeanNN geom locations < 500 then "clustered"
          else "dispersed") }

/-! Concrete instances of the opaque collaborators, used to evaluate the
embedded operations at closed inputs. -/

/-- A concrete grid: the cell id records the resolution, every centre is the
origin, every disk is the singleton of its cell and all great-circle
distances are zero. -/
def gridW : H3Grid :=
  { latlng_to_cell := fun _ _ resolution => "cell-" ++ toString resolution
    cell_to_latlng := fun _ => (0, 0)
    get_resolution := fun _ => 8
    grid_disk := fun c _ => [c]
    great_circle_distance := fun _ _ => 0 }

/-- The empty store. -/
def storeEmpty : Store := { cells := [], occupancies := [], landmarks := [] }

/-- A concrete grid whose disk around the cell c0 contains the two
neighbours n1 and n2, both at the same great-circle distance from c0. -/
def grid4 : H3Grid :=
  { latlng_to_cell := fun _ _ _ => "c0"
    cell_to_latlng := fun c =>
      if c = "n1" then (0, 3) else if c = "n2" then (3, 0) else (0, 0)
    get_resolution := fun _ => 8
    grid_disk := fun c _ => [c, "n1", "n2"]
    great_circle_distance := fun p q => if p = q then 0 else 7 }

/-- The cell row for n1 with one active user. -/
def cellN1 : HexCell :=
  { h3_index := "n1", resolution := 8, center_lat := 0, center_lng := 3
    active_users := 1 }

/-- The cell row for n2 with one active user. -/
def cellN2 : HexCell :=
  { h3_index := "n2", resolution := 8, center_lat := 3, center_lng := 0
    active_users := 1 }

/-- A store holding the two equidistant neighbour cells, n2 stored before n1. -/
def store4 : Store := { cells := [cellN2, cellN1], occupancies := [], landmarks := [] }

/-- A concrete polygon engine over a trivial polygon type: the origin is on
the boundary, everything else outside. -/
def engine6 : GeoEngine Unit :=
  { classify := fun p _ => if p = (0, 0) then Region.boundary else Region.exterior }

/-- A location sitting exactly at the origin. -/
def loc6 : LocationResponse :=
  { id := "a", coordinates := { latitude := 0, longitude := 0 } }

/-- A degenerate planar geometry: identity projection, zero distances and
zero hull areas. -/
def geomZero : PlanarGeom :=
  { proj := fun p => p
    unproj := fun p => p
    dist := fun _ _ => 0
    centroid := fun _ => (0, 0)
    hullArea := fun _ => 0 }

/-- A planar geometry with identity projection and taxicab distance, enough
to exercise the distance-ordering paths on closed inputs. -/
def geomTaxi : PlanarGeom :=
  { proj := fun p => p
    unproj := fun p => p
    dist := fun p q => |p.1 - q.1| + |p.2 - q.2|
    centroid := fun _ => (0, 0)
    hullArea := fun _ => 0 }

/-- Three concrete locations with pairwise-distinct ids. -/
def locsW : List LocationResponse :=
  [ { id := "a", coordinates := { latitude := 0, longitude := 0 } },
    { id := "b", coordinates := { latitude := 0, longitude := 2 } },
    { id := "c", coordinates := { latitude := 1, longitude := 0 } } ]

/-- Ordering by a rational sort key with ties ordered by a position: the
ordering a stable ascending sort realises when positions are the indices of
the input. -/
abbrev keyLex {α : Type} (k : α → ℚ) (p : α → Nat) (a b : α) : Prop :=
  k a < k b ∨ (k a = k b ∧ p a < p b)

/-! Helper lemmas about the store operations. -/

theorem findOcc_set_cells (s : Store) (cs : List HexCell) (u cid : String) :
    findOcc { s with cells := cs } u cid = findOcc s u cid := rfl

theorem occCount_set_cells (s : Store) (cs : List HexCell) (cid : String) :
    occCount { s with cells := cs } cid = occCount s cid := rfl

theorem find?_updateCell (cid : String) (c2 : HexCell) (h2 : c2.h3_index = cid) :
    ∀ cs : List HexCell, (∃ c ∈ cs, c.h3_index = cid) →
      (updateCell cs cid c2).find? (fun c => c.h3_index == cid) = some c2 := by
  intro cs
  induction cs with
  | nil => rintro ⟨c, hc, -⟩; cases hc
  | cons a cs ih =>
    rintro ⟨c, hc, hcid⟩
    by_cases ha : a.h3_index = cid
    · simp [updateCell, ha, h2]
    · have hstep : updateCell (a :: cs) cid c2 = a :: updateCell cs cid c2 := by
        simp [updateCell, ha]
      rw [hstep, List.find?_cons_of_neg _ (by simp [ha])]
      apply ih
      rcases List.mem_cons.mp hc with rfl | hmem
      · exact absurd hcid ha
      · exact ⟨c, hmem, hcid⟩

theorem find?_updateOcc (u cid : String) (o2 : UserHexLocation)
    (h2 : (o2.user_id == u && o2.h3_index == cid) = true) :
    ∀ os : List UserHexLocation,
      (∃ o ∈ os, (o.user_id == u && o.h3_index == cid) = true) →
      (updateOcc os u cid o2).find? (fun o => o.user_id == u && o.h3_index == cid)
        = some o2 := by
  intro os
  induction os with
  | nil => rintro ⟨o, ho, -⟩; cases ho
  | cons a os ih =>
    rintro ⟨o, ho, hom⟩
    by_cases ha : (a.user_id == u && a.h3_index == cid) = true
    · have hstep : updateOcc (a :: os) u cid o2 = o2 :: updateOcc os u cid o2 := by
        simp only [updateOcc, List.map_cons]
        rw [if_pos ha]
      rw [hstep]
      exact List.find?_cons_of_pos _ h2
    · have hstep : updateOcc (a :: os) u cid o2 = a :: updateOcc os u cid o2 := by
        simp only [updateOcc, List.map_cons]
        rw [if_neg ha]
      have ha' : (a.user_id == u && a.h3_index == cid) = false :=
        Bool.eq_false_iff.mpr ha
      rw [hstep]
      simp only [List.find?_cons, ha']
      apply ih
      rcases List.mem_cons.mp ho with rfl | hmem
      · exact absurd hom ha
      · exact ⟨o, hmem, hom⟩

/-- Behaviour of join_hex_chat when the caller has no occupancy of the
resolved cell yet: a new occupancy row appears, and the committed cell row
carries active_users = (count of occupancy rows before the call) + 1. -/
theorem joinState_fresh (g : H3Grid) (s0 : Store) (u : String) (lat lng : ℚ)
    (resolution : Int) (now : Nat)
    (hfresh : findOcc s0 u (get_hex_for_location g lat lng resolution) = none) :
    cellActive (joinState g s0 u lat lng resolution now)
        (get_hex_for_location g lat lng resolution)
      = (occCount s0 (get_hex_for_location g lat lng resolution) : Int) + 1 ∧
    occCount (joinState g s0 u lat lng resolution now)
        (get_hex_for_location g lat lng resolution)
      = occCount s0 (get_hex_for_location g lat lng resolution) + 1 ∧
    findOcc (joinState g s0 u lat lng resolution now) u
        (get_hex_for_location g lat lng resolution)
      = some { user_id := u
               h3_index := get_hex_for_location g lat lng resolution
               joined_at := now
               last_active := now
               last_seen := none } := by
  set cid := get_hex_for_location g lat lng resolution with hcid
  have hfresh' : s0.occupancies.find?
      (fun o => o.user_id == u && o.h3_index == cid) = none := hfresh
  simp only [joinState, join_hex_chat, get_or_create_hex_cell, ← hcid]
  cases hfc : findCell s0 cid with
  | some c =>
    have hch : c.h3_index = cid := by
      have := List.find?_some hfc
      simpa using this
    simp only [hch, hfresh]
    refine ⟨?_, ?_, ?_⟩
    · simp only [cellActive, findCell]
      rw [find?_updateCell cid _ rfl _ ⟨c, List.mem_of_find?_eq_some hfc, hch⟩]
    · simp only [occCount, List.filter_append]
      simp
    · simp only [findOcc, List.find?_append, hfresh']
      simp
  | none =>
    rw [findOcc_set_cells s0 _ u cid]
    simp only [hfresh]
    refine ⟨?_, ?_, ?_⟩
    · simp only [cellActive, findCell]
      rw [find?_updateCell cid _ rfl _
        ⟨_, List.mem_append_right _ (List.mem_singleton.mpr rfl), rfl⟩]
      simp only [occCount_set_cells]
    · simp only [occCount, List.filter_append]
      simp
    · simp only [findOcc, List.find?_append, hfresh']
      simp

/-- Behaviour of join_hex_chat when the caller already occupies the resolved
cell: the stored active_users of the cell is unchanged and the only change
to the occupancy row is the assignment of its last_seen attribute. -/
theorem joinState_repeat (g : H3Grid) (s0 : Store) (u : String) (lat lng : ℚ)
    (resolution : Int) (now : Nat) (o : UserHexLocation)
    (hocc : findOcc s0 u (get_hex_for_location g lat lng resolution) = some o) :
    cellActive (joinState g s0 u lat lng resolution now)
        (get_hex_for_location g lat lng resolution)
      = cellActive s0 (get_hex_for_location g lat lng resolution) ∧
    findOcc (joinState g s0 u lat lng resolution now) u
        (get_hex_for_location g lat lng resolution)
      = some { o with last_seen := some now } := by
  set cid := get_hex_for_location g lat lng resolution with hcid
  have hocc' : s0.occupancies.find?
      (fun x => x.user_id == u && x.h3_index == cid) = some o := hocc
  have hqo0 := List.find?_some hocc'
  have hmo0 := List.mem_of_find?_eq_some hocc'
  have hqo : (o.user_id == u && o.h3_index == cid) = true := hqo0
  have hexo : ∃ x ∈ s0.occupancies, (x.user_id == u && x.h3_index == cid) = true :=
    ⟨o, hmo0, hqo⟩
  have hq2 : (({ o with last_seen := some now } : UserHexLocation).user_id == u &&
      ({ o with last_seen := some now } : UserHexLocation).h3_index == cid) = true := hqo
  simp only [joinState, join_hex_chat, get_or_create_hex_cell, ← hcid]
  cases hfc : findCell s0 cid with
  | some c =>
    have hch : c.h3_index = cid := by
      have := List.find?_some hfc
      simpa using this
    simp only [hch, hocc]
    constructor
    · simp only [cellActive, findCell]
      rw [find?_updateCell cid _ rfl _ ⟨c, List.mem_of_find?_eq_some hfc, hch⟩]
      have : s0.cells.find? (fun x => x.h3_index == cid) = some c := hfc
      rw [this]
    · exact find?_updateOcc u cid _ hq2 _ hexo
  | none =>
    rw [findOcc_set_cells s0 _ u cid]
    simp only [hocc]
    constructor
    · simp only [cellActive, findCell]
      rw [find?_updateCell cid _ rfl _
        ⟨_, List.mem_append_right _ (List.mem_singleton.mpr rfl), rfl⟩]
      have : s0.cells.find? (fun x => x.h3_index == cid) = none := hfc
      rw [this]
    · exact find?_updateOcc u cid _ hq2 _ hexo

/-! Stability of insertionSort with a key relation: over an input whose
positions are strictly increasing, the output is pairwise keyLex-ordered. -/

theorem keyLex_le {α : Type} (k : α → ℚ) (p : α → Nat) {a b : α}
    (h : keyLex k p a b) : k a ≤ k b := by
  rcases h with h | ⟨h, -⟩
  · exact le_of_lt h
  · exact le_of_eq h

theorem pairwise_keyLex_orderedInsert {α : Type} (k : α → ℚ) (p : α → Nat)
    (x : α) : ∀ L : List α, L.Pairwise (keyLex k p) → (∀ y ∈ L, p x < p y) →
    (List.orderedInsert (fun a b => k a ≤ k b) x L).Pairwise (keyLex k p) := by
  intro L
  induction L with
  | nil =>
    intro _ _
    simp
  | cons y L ih =>
    intro hL hx
    rw [List.pairwise_cons] at hL
    obtain ⟨hyL, hL⟩ := hL
    by_cases h : k x ≤ k y
    · rw [List.orderedInsert, if_pos h]
      refine List.Pairwise.cons ?_ (List.Pairwise.cons hyL hL)
      intro z hz
      rcases List.mem_cons.mp hz with rfl | hzL
      · rcases lt_or_eq_of_le h with hlt | heq
        · exact Or.inl hlt
        · exact Or.inr ⟨heq, hx z (List.mem_cons_self _ _)⟩
      · have hkz : k y ≤ k z := keyLex_le k p (hyL z hzL)
        rcases lt_or_eq_of_le (le_trans h hkz) with hlt | heq
        · exact Or.inl hlt
        · exact Or.inr ⟨heq, hx z (List.mem_cons_of_mem _ hzL)⟩
    · rw [List.orderedInsert, if_neg h]
      refine List.Pairwise.cons ?_
        (ih hL (fun z hz => hx z (List.mem_cons_of_mem _ hz)))
      intro z hz
      rcases (List.mem_orderedInsert _).mp hz with rfl | hzL
      · exact Or.inl (not_le.mp h)
      · exact hyL z hzL

theorem pairwise_keyLex_insertionSort {α : Type} (k : α → ℚ) (p : α → Nat) :
    ∀ l : List α, l.Pairwise (fun a b => p a < p b) →
    (l.insertionSort (fun a b => k a ≤ k b)).Pairwise (keyLex k p) := by
  intro l
  induction l with
  | nil =>
    intro _
    simp
  | cons a l ih =>
    intro hp
    rw [List.pairwise_cons] at hp
    obtain ⟨ha, hp⟩ := hp
    rw [List.insertionSort]
    exact pairwise_keyLex_orderedInsert k p a _ (ih hp)
      (fun y hy => ha y ((List.perm_insertionSort _ l).mem_iff.mp hy))

theorem pairwise_indexOf_lt {α : Type} [DecidableEq α] :
    ∀ l : List α, l.Nodup →
      l.Pairwise (fun a b => l.indexOf a < l.indexOf b) := by
  intro l
  induction l with
  | nil =>
    intro _
    exact List.Pairwise.nil
  | cons a l ih =>
    intro h
    rw [List.nodup_cons] at h
    obtain ⟨ha, hnd⟩ := h
    refine List.Pairwise.cons ?_ ?_
    · intro b hb
      have hab : a ≠ b := fun heq => ha (heq ▸ hb)
      rw [List.indexOf_cons_self, List.indexOf_cons_ne _ hab]
      exact Nat.succ_pos _
    · refine (ih hnd).imp_of_mem ?_
      intro x y hx hy hxy
      have hax : a ≠ x := fun heq => ha (heq ▸ hx)
      have hay : a ≠ y := fun heq => ha (heq ▸ hy)
      rw [List.indexOf_cons_ne _ hax, List.indexOf_cons_ne _ hay]
      omega

/-- Under pairwise-distinct ids, the first location found with the id of a
member is the member itself. -/
theorem find?_id_self (locations : List LocationResponse)
    (hids : (locations.map (fun l => l.id)).Nodup) :
    ∀ l ∈ locations, locations.find? (fun x => x.id == l.id) = some l := by
  induction locations with
  | nil =>
    intro l hl
    cases hl
  | cons a locations ih =>
    rw [List.map_cons, List.nodup_cons] at hids
    obtain ⟨hna, hnd⟩ := hids
    intro l hl
    rcases List.mem_cons.mp hl with rfl | hl2
    · rw [List.find?_cons_of_pos _ (by simp)]
    · have hne : (a.id == l.id) = false := by
        have hne2 : a.id ≠ l.id := fun heq =>
          hna (heq ▸ List.mem_map_of_mem (fun x => x.id) hl2)
        simpa using hne2
      simp only [List.find?_cons, hne]
      exact ih hnd l hl2

/-! Claim theorems. -/

/-- C1: for every user, coordinate and resolution, calling join twice for
the same (user, cell) pair increases the stored active_users of the cell by
at most 1 in total: the first call creates the Occupancy and raises
active_users by exactly 1, and the second call updates only the last_seen
attribute of the occupancy, leaving active_users unchanged.  Stated for a
store in which the user does not yet occupy the resolved cell and whose
stored active_users agrees with the occupancy count of that cell. -/
theorem join_twice_increments_at_most_once
    (g : H3Grid) (s0 : Store) (u : String) (lat lng : ℚ) (resolution : Int)
    (t1 t2 : Nat) (cid : String)
    (hcid : cid = get_hex_for_location g lat lng resolution)
    (hcons : cellActive s0 cid = (occCount s0 cid : Int))
    (hfresh : findOcc s0 u cid = none) :
    cellActive (joinState g s0 u lat lng resolution t1) cid
        = cellActive s0 cid + 1 ∧
    cellActive (joinState g (joinState g s0 u lat lng resolution t1) u lat lng
        resolution t2) cid
      = cellActive (joinState g s0 u lat lng resolution t1) cid ∧
    ∃ occ1,
      findOcc (joinState g s0 u lat lng resolution t1) u cid = some occ1 ∧
      findOcc (joinState g (joinState g s0 u lat lng resolution t1) u lat lng
          resolution t2) u cid
        = some { occ1 with last_seen := some t2 } := by
  subst hcid
  obtain ⟨h1, h2, h3⟩ := joinState_fresh g s0 u lat lng resolution t1 hfresh
  obtain ⟨h4, h5⟩ := joinState_repeat g (joinState g s0 u lat lng resolution t1)
    u lat lng resolution t2 _ h3
  exact ⟨by rw [h1, hcons], h4, _, h3, h5⟩

/-- Closed witness for C1: both joins of the same user at the origin on the
empty store, evaluated at concrete inputs. -/
theorem join_twice_increments_at_most_once_witness :
    ("cell-8" = get_hex_for_location gridW 0 0 8 ∧
      cellActive storeEmpty "cell-8" = (occCount storeEmpty "cell-8" : Int) ∧
      findOcc storeEmpty "u" "cell-8" = none) ∧
    (cellActive (joinState gridW storeEmpty "u" 0 0 8 1) "cell-8"
        = cellActive storeEmpty "cell-8" + 1 ∧
      cellActive (joinState gridW (joinState gridW storeEmpty "u" 0 0 8 1) "u" 0 0 8 2)
          "cell-8"
        = cellActive (joinState gridW storeEmpty "u" 0 0 8 1) "cell-8" ∧
      ∃ occ1,
        findOcc (joinState gridW storeEmpty "u" 0 0 8 1) "u" "cell-8" = some occ1 ∧
        findOcc (joinState gridW (joinState gridW storeEmpty "u" 0 0 8 1) "u" 0 0 8 2)
            "u" "cell-8"
          = some { occ1 with last_seen := some 2 }) :=
  ⟨⟨by decide, by decide, by decide⟩,
    join_twice_increments_at_most_once gridW storeEmpty "u" 0 0 8 1 2 "cell-8"
      (by decide) (by decide) (by decide)⟩

/-- C2: the claim describes an inactivity sweep that deletes exactly the
occupancies last seen before the cutoff and is idempotent; the code cannot
perform it, because cleanup_inactive_users filters and deletes on the class
attribute UserHexLocation.last_seen, which is not among the mapped columns
of the model (the column is last_active), so every invocation raises
AttributeError before touching the store, contradicting the docstring of
the function and the tests of the repository. -/
theorem cleanup_filter_attribute_not_a_column :
    cleanupFilterAttribute ∉ userHexLocationColumns := by decide

/-- C3: whenever join creates a new Occupancy for (userId, cellId), the
committed active_users of the cell equals the authoritative number of
occupancy rows existing for that cell after the insertion. -/
theorem join_new_user_sets_authoritative_count
    (g : H3Grid) (s0 : Store) (u : String) (lat lng : ℚ) (resolution : Int)
    (now : Nat) (cid : String)
    (hcid : cid = get_hex_for_location g lat lng resolution)
    (hfresh : findOcc s0 u cid = none) :
    cellActive (joinState g s0 u lat lng resolution now) cid
      = (occCount (joinState g s0 u lat lng resolution now) cid : Int) := by
  subst hcid
  obtain ⟨h1, h2, -⟩ := joinState_fresh g s0 u lat lng resolution now hfresh
  rw [h1, h2]
  push_cast
  ring

/-- Closed witness for C3: a first join at the origin on the empty store. -/
theorem join_new_user_sets_authoritative_count_witness :
    ("cell-8" = get_hex_for_location gridW 0 0 8 ∧
      findOcc storeEmpty "v" "cell-8" = none) ∧
    cellActive (joinState gridW storeEmpty "v" 0 0 8 3) "cell-8"
      = (occCount (joinState gridW storeEmpty "v" 0 0 8 3) "cell-8" : Int) :=
  ⟨⟨by decide, by decide⟩,
    join_new_user_sets_authoritative_count gridW storeEmpty "v" 0 0 8 3 "cell-8"
      (by decide) (by decide)⟩

/-- C5 (counterexample): resolution 11 lies outside the 6..10 band.  The
resolveCell of the specification fails there with InvalidResolution, but
the coordinate-to-cell function of the service succeeds by delegating to
the grid primitive, and a service-level join at resolution 11 creates the
cell: no check exists at the service boundary. -/
theorem resolveCell_outside_band_counterexample :
    resolveCellSpec gridW 0 0 11 = Except.error "InvalidResolution" ∧
    get_hex_for_location gridW 0 0 11 = "cell-11" ∧
    (joinState gridW storeEmpty "u" 0 0 11 0).cells.length = 1 := by
  refine ⟨rfl, by decide, by decide⟩

/-- C5 (amended): the 6..10 resolution band is enforced only at the HTTP
route join_neighborhood_chat, which rejects out-of-band resolutions with a
400 error before invoking the service; inside the band the route delegates
to the service, whose resolution function performs no check of its own. -/
theorem join_route_enforces_resolution_band (g : H3Grid) (s : Store)
    (lat lng : ℚ) (resolution : Int) (now : Nat) :
    ((∃ v, join_neighborhood_chat g s lat lng resolution now = Except.ok v) ↔
      6 ≤ resolution ∧ resolution ≤ 10) ∧
    (join_neighborhood_chat g s lat lng resolution now = Except.error 400 ↔
      resolution < 6 ∨ resolution > 10) := by
  unfold join_neighborhood_chat
  split_ifs with h
  · refine ⟨iff_of_false ?_ (by omega), iff_of_true rfl h⟩
    rintro ⟨v, hv⟩
    simp at hv
  · refine ⟨iff_of_true ⟨_, rfl⟩ (by omega), iff_of_false ?_ h⟩
    intro hv
    simp at hv

/-- C9 (counterexample): at the diagonal delta (1, 1) the two absolute
deltas are equal; the code classifies east while the claim (equal deltas
are latitude-dominant) classifies north. -/
theorem get_direction_tie_counterexample :
    get_direction (0, 0) (1, 1) = "east" ∧
    directionSpecC9 (0, 0) (1, 1) = "north" := by
  constructor
  · show (if |(1 : ℚ) - 0| > |(1 : ℚ) - 0| then
        if (1 : ℚ) - 0 > 0 then "north" else "south"
      else if (1 : ℚ) - 0 > 0 then "east" else "west") = "east"
    rw [if_neg (lt_irrefl _), if_pos (by norm_num)]
  · show (if |(1 : ℚ) - 0| ≥ |(1 : ℚ) - 0| then
        if (1 : ℚ) - 0 > 0 then "north" else "south"
      else if (1 : ℚ) - 0 > 0 then "east" else "west") = "north"
    rw [if_pos (le_refl _), if_pos (by norm_num)]

/-- C9 (amended): the cardinal direction is north/south exactly when the
absolute latitude delta strictly dominates the absolute longitude delta
(north for positive delta, south otherwise); equal absolute deltas fall to
the longitude-dominant branch, east/west. -/
theorem get_direction_cases (fromPoint toPoint : ℚ × ℚ) :
    (get_direction fromPoint toPoint = "north" ↔
      |toPoint.2 - fromPoint.2| < |toPoint.1 - fromPoint.1| ∧
        0 < toPoint.1 - fromPoint.1) ∧
    (get_direction fromPoint toPoint = "south" ↔
      |toPoint.2 - fromPoint.2| < |toPoint.1 - fromPoint.1| ∧
        toPoint.1 - fromPoint.1 ≤ 0) ∧
    (get_direction fromPoint toPoint = "east" ↔
      |toPoint.1 - fromPoint.1| ≤ |toPoint.2 - fromPoint.2| ∧
        0 < toPoint.2 - fromPoint.2) ∧
    (get_direction fromPoint toPoint = "west" ↔
      |toPoint.1 - fromPoint.1| ≤ |toPoint.2 - fromPoint.2| ∧
        toPoint.2 - fromPoint.2 ≤ 0) := by
  unfold get_direction
  by_cases h1 : |toPoint.1 - fromPoint.1| > |toPoint.2 - fromPoint.2|
  · rw [if_pos h1]
    by_cases h2 : toPoint.1 - fromPoint.1 > 0
    · rw [if_pos h2]
      refine ⟨iff_of_true rfl ⟨h1, h2⟩, iff_of_false (by decide) ?_,
        iff_of_false (by decide) ?_, iff_of_false (by decide) ?_⟩
      · rintro ⟨-, hc⟩; exact absurd h2 (not_lt.mpr hc)
      · rintro ⟨hc, -⟩; exact absurd h1 (not_lt.mpr hc)
      · rintro ⟨hc, -⟩; exact absurd h1 (not_lt.mpr hc)
    · rw [if_neg h2]
      refine ⟨iff_of_false (by decide) ?_, iff_of_true rfl ⟨h1, not_lt.mp h2⟩,
        iff_of_false (by decide) ?_, iff_of_false (by decide) ?_⟩
      · rintro ⟨-, hc⟩; exact absurd hc h2
      · rintro ⟨hc, -⟩; exact absurd h1 (not_lt.mpr hc)
      · rintro ⟨hc, -⟩; exact absurd h1 (not_lt.mpr hc)
  · rw [if_neg h1]
    have hle : |toPoint.1 - fromPoint.1| ≤ |toPoint.2 - fromPoint.2| := not_lt.mp h1
    by_cases h2 : toPoint.2 - fromPoint.2 > 0
    · rw [if_pos h2]
      refine ⟨iff_of_false (by decide) ?_, iff_of_false (by decide) ?_,
        iff_of_true rfl ⟨hle, h2⟩, iff_of_false (by decide) ?_⟩
      · rintro ⟨hc, -⟩; exact absurd (lt_of_le_of_lt hle hc) (lt_irrefl _)
      · rintro ⟨hc, -⟩; exact absurd (lt_of_le_of_lt hle hc) (lt_irrefl _)
      · rintro ⟨-, hc⟩; exact absurd h2 (not_lt.mpr hc)
    · rw [if_neg h2]
      refine ⟨iff_of_false (by decide) ?_, iff_of_false (by decide) ?_,
        iff_of_false (by decide) ?_, iff_of_true rfl ⟨hle, not_lt.mp h2⟩⟩
      · rintro ⟨hc, -⟩; exact absurd (lt_of_le_of_lt hle hc) (lt_irrefl _)
      · rintro ⟨hc, -⟩; exact absurd (lt_of_le_of_lt hle hc) (lt_irrefl _)
      · rintro ⟨-, hc⟩; exact absurd hc h2

/-- Under pairwise-distinct ids the id lookup at the end of
find_nearest_neighbors is the identity, so the result is the k head rows of
the stable ascending sort of the distance rows. -/
theorem find_nearest_neighbors_eq_take (geom : PlanarGeom) (target : Coordinates)
    (locations : List LocationResponse) (k : Nat)
    (hids : (locations.map (fun l => l.id)).Nodup) :
    find_nearest_neighbors geom target locations k
      = (nnSorted geom target locations).take k := by
  by_cases hemp : locations = []
  · subst hemp
    simp [find_nearest_neighbors, nnSorted, nnRows]
  · unfold find_nearest_neighbors
    rw [if_neg hemp]
    have hfix : ∀ r ∈ (nnSorted geom target locations).take k,
        ((locations.find? (fun x => x.id == r.1.id)).getD r.1, r.2) = r := by
      intro r hr
      have hrS : r ∈ nnSorted geom target locations :=
        (List.take_sublist _ _).subset hr
      have hrrows : r ∈ nnRows geom target locations :=
        (List.perm_insertionSort _ _).mem_iff.mp hrS
      obtain ⟨l, hl, rfl⟩ := List.mem_map.mp hrrows
      rw [find?_id_self locations hids l hl]
      rfl
    show ((nnSorted geom target locations).take k).map
        (fun r => ((locations.find? (fun x => x.id == r.1.id)).getD r.1, r.2))
      = (nnSorted geom target locations).take k
    rw [List.map_congr_left hfix]
    exact List.map_id _

/-- The first components of the distance rows are the input locations. -/
theorem map_fst_nnRows (geom : PlanarGeom) (target : Coordinates) :
    ∀ locations : List LocationResponse,
      (nnRows geom target locations).map (fun r => r.1) = locations := by
  intro locations
  induction locations with
  | nil => rfl
  | cons a ls ih => simpa [nnRows] using ih

/-- C8: find_nearest_neighbors returns the k rows of smallest projected
distance: the reported distances are non-decreasing; distance ties are held
in stable input order; every returned row is an input location paired with
its computed distance; the output has min k n rows; every location left out
is at least as far from the target as every returned row; and when k is at
least the population size the whole population is returned.  Stated for the
data-model invariant of pairwise-distinct location ids. -/
theorem find_nearest_neighbors_props (geom : PlanarGeom) (target : Coordinates)
    (locations : List LocationResponse) (k : Nat)
    (hids : (locations.map (fun l => l.id)).Nodup) :
    ((find_nearest_neighbors geom target locations k).map
        (fun r => r.2)).Sorted (· ≤ ·) ∧
    (find_nearest_neighbors geom target locations k).Pairwise
      (keyLex (fun r => r.2) (fun r => locations.indexOf r.1)) ∧
    (∀ r ∈ find_nearest_neighbors geom target locations k,
      r.1 ∈ locations ∧
        r.2 = geom.dist (geom.proj (toPoint r.1))
          (geom.proj (target.longitude, target.latitude))) ∧
    (find_nearest_neighbors geom target locations k).length
      = min k locations.length ∧
    (∀ l ∈ locations,
      l ∉ (find_nearest_neighbors geom target locations k).map (fun r => r.1) →
      ∀ r ∈ find_nearest_neighbors geom target locations k,
        r.2 ≤ geom.dist (geom.proj (toPoint l))
          (geom.proj (target.longitude, target.latitude))) ∧
    (locations.length ≤ k →
      List.Perm ((find_nearest_neighbors geom target locations k).map (fun r => r.1))
        locations) := by
  have hout := find_nearest_neighbors_eq_take geom target locations k hids
  have hper : List.Perm (nnSorted geom target locations) (nnRows geom target locations) :=
    List.perm_insertionSort _ _
  have hnd : locations.Nodup := List.Nodup.of_map _ hids
  have hrows_pair : (nnRows geom target locations).Pairwise
      (fun a b => locations.indexOf a.1 < locations.indexOf b.1) := by
    exact List.pairwise_map.mpr (pairwise_indexOf_lt locations hnd)
  have hlex : (nnSorted geom target locations).Pairwise
      (keyLex (fun r => r.2) (fun r => locations.indexOf r.1)) :=
    pairwise_keyLex_insertionSort _ _ _ hrows_pair
  have htake_lex : ((nnSorted geom target locations).take k).Pairwise
      (keyLex (fun r => r.2) (fun r => locations.indexOf r.1)) :=
    List.Pairwise.sublist (List.take_sublist _ _) hlex
  have hSle : (nnSorted geom target locations).Pairwise (fun a b => a.2 ≤ b.2) :=
    hlex.imp (fun h => keyLex_le _ _ h)
  refine ⟨?_, ?_, ?_, ?_, ?_, ?_⟩
  · rw [hout]
    exact List.pairwise_map.mpr (htake_lex.imp (fun h => keyLex_le _ _ h))
  · rw [hout]
    exact htake_lex
  · intro r hr
    rw [hout] at hr
    have hrrows : r ∈ nnRows geom target locations :=
      hper.mem_iff.mp ((List.take_sublist _ _).subset hr)
    obtain ⟨l, hl, rfl⟩ := List.mem_map.mp hrrows
    exact ⟨hl, rfl⟩
  · rw [hout]
    simp [nnSorted, nnRows, List.length_take]
  · intro l hl hnot r hr
    rw [hout] at hnot hr
    have hrowl : (l, geom.dist (geom.proj (toPoint l))
        (geom.proj (target.longitude, target.latitude)))
        ∈ nnRows geom target locations :=
      List.mem_map_of_mem _ hl
    have hrowlS := hper.mem_iff.mpr hrowl
    have hsplit : (l, geom.dist (geom.proj (toPoint l))
        (geom.proj (target.longitude, target.latitude)))
        ∈ (nnSorted geom target locations).take k
          ++ (nnSorted geom target locations).drop k := by
      rw [List.take_append_drop]
      exact hrowlS
    rcases List.mem_append.mp hsplit with hin | hdrop
    · exact absurd (List.mem_map_of_mem (fun r => r.1) hin) hnot
    · have happ : ((nnSorted geom target locations).take k
          ++ (nnSorted geom target locations).drop k).Pairwise
            (fun a b : LocationResponse × ℚ => a.2 ≤ b.2) := by
        rw [List.take_append_drop]
        exact hSle
      exact (List.pairwise_append.mp happ).2.2 r hr _ hdrop
  · intro hk
    rw [hout, List.take_of_length_le (by simpa [nnSorted, nnRows] using hk)]
    have h1 : List.Perm ((nnSorted geom target locations).map (fun r => r.1))
        ((nnRows geom target locations).map (fun r => r.1)) := hper.map _
    rw [map_fst_nnRows geom target locations] at h1
    exact h1

/-- Closed witness for C8: three concrete locations under the taxicab
geometry with k = 2. -/
theorem find_nearest_neighbors_props_witness :
    (locsW.map (fun l => l.id)).Nodup ∧
    (((find_nearest_neighbors geomTaxi { latitude := 0, longitude := 0 } locsW 2).map
        (fun r => r.2)).Sorted (· ≤ ·) ∧
    (find_nearest_neighbors geomTaxi { latitude := 0, longitude := 0 } locsW 2).Pairwise
      (keyLex (fun r => r.2) (fun r => locsW.indexOf r.1)) ∧
    (∀ r ∈ find_nearest_neighbors geomTaxi { latitude := 0, longitude := 0 } locsW 2,
      r.1 ∈ locsW ∧
        r.2 = geomTaxi.dist (geomTaxi.proj (toPoint r.1))
          (geomTaxi.proj ((({ latitude := 0, longitude := 0 } : Coordinates)).longitude,
            (({ latitude := 0, longitude := 0 } : Coordinates)).latitude))) ∧
    (find_nearest_neighbors geomTaxi { latitude := 0, longitude := 0 } locsW 2).length
      = min 2 locsW.length ∧
    (∀ l ∈ locsW,
      l ∉ (find_nearest_neighbors geomTaxi { latitude := 0, longitude := 0 } locsW 2).map
        (fun r => r.1) →
      ∀ r ∈ find_nearest_neighbors geomTaxi { latitude := 0, longitude := 0 } locsW 2,
        r.2 ≤ geomTaxi.dist (geomTaxi.proj (toPoint l))
          (geomTaxi.proj ((({ latitude := 0, longitude := 0 } : Coordinates)).longitude,
            (({ latitude := 0, longitude := 0 } : Coordinates)).latitude))) ∧
    (locsW.length ≤ 2 →
      List.Perm ((find_nearest_neighbors geomTaxi { latitude := 0, longitude := 0 } locsW 2).map
        (fun r => r.1)) locsW)) :=
  ⟨by decide,
    find_nearest_neighbors_props geomTaxi { latitude := 0, longitude := 0 } locsW 2
      (by decide)⟩

/-- C4 (counterexample): with two equidistant active neighbour cells stored
in the order n2, n1, the output of get_active_neighbors keeps the store
order n2, n1 — both at the same reported distance — so the result is not
sorted with distance ties broken ascending by cell id, as the claim states. -/
theorem get_active_neighbors_tiebreak_counterexample :
    (get_active_neighbors grid4 store4 "c0" 1).map (fun i => i.h3_index)
      = ["n2", "n1"] ∧
    (∀ i ∈ get_active_neighbors grid4 store4 "c0" 1, i.distance_km = 7) ∧
    ¬ sortedByDistThenId (get_active_neighbors grid4 store4 "c0" 1) := by
  have hround : round1 (7 : ℚ) = 7 := by
    norm_num [round1, round_eq]
  have hc2 : grid4.cell_to_latlng "n2" = ((3 : ℚ), (0 : ℚ)) := by
    show (if ("n2" : String) = "n1" then ((0 : ℚ), (3 : ℚ))
      else if ("n2" : String) = "n2" then ((3 : ℚ), (0 : ℚ))
      else ((0 : ℚ), (0 : ℚ))) = _
    rw [if_neg (by decide), if_pos rfl]
  have hc1 : grid4.cell_to_latlng "n1" = ((0 : ℚ), (3 : ℚ)) := by
    show (if ("n1" : String) = "n1" then ((0 : ℚ), (3 : ℚ))
      else if ("n1" : String) = "n2" then ((3 : ℚ), (0 : ℚ))
      else ((0 : ℚ), (0 : ℚ))) = _
    rw [if_pos rfl]
  have hgc2 : grid4.great_circle_distance (0, 0) ((3 : ℚ), (0 : ℚ)) = 7 := by
    show (if ((0 : ℚ), (0 : ℚ)) = ((3 : ℚ), (0 : ℚ)) then (0 : ℚ) else 7) = 7
    rw [if_neg (by decide)]
  have hgc1 : grid4.great_circle_distance (0, 0) ((0 : ℚ), (3 : ℚ)) = 7 := by
    show (if ((0 : ℚ), (0 : ℚ)) = ((0 : ℚ), (3 : ℚ)) then (0 : ℚ) else 7) = 7
    rw [if_neg (by decide)]
  have hd2 : (mkNeighborInfo grid4 (0, 0) cellN2).distance_km = 7 := by
    show round1 (grid4.great_circle_distance (0, 0)
      (grid4.cell_to_latlng cellN2.h3_index)) = 7
    rw [show cellN2.h3_index = "n2" from rfl, hc2, hgc2, hround]
  have hd1 : (mkNeighborInfo grid4 (0, 0) cellN1).distance_km = 7 := by
    show round1 (grid4.great_circle_distance (0, 0)
      (grid4.cell_to_latlng cellN1.h3_index)) = 7
    rw [show cellN1.h3_index = "n1" from rfl, hc1, hgc1, hround]
  have hinfos : neighborInfos grid4 store4 "c0" 1
      = [mkNeighborInfo grid4 (0, 0) cellN2, mkNeighborInfo grid4 (0, 0) cellN1] := by
    simp [neighborInfos, grid4, store4, cellN1, cellN2]
  have hout : get_active_neighbors grid4 store4 "c0" 1
      = [mkNeighborInfo grid4 (0, 0) cellN2, mkNeighborInfo grid4 (0, 0) cellN1] := by
    unfold get_active_neighbors
    rw [hinfos]
    simp only [List.insertionSort, List.orderedInsert]
    rw [if_pos (by rw [hd2, hd1])]
  refine ⟨by rw [hout]; rfl, ?_, ?_⟩
  · intro i hi
    rw [hout] at hi
    rcases List.mem_cons.mp hi with rfl | hi2
    · exact hd2
    rcases List.mem_cons.mp hi2 with rfl | hi3
    · exact hd1
    cases hi3
  · intro hsort
    unfold sortedByDistThenId at hsort
    rw [hout] at hsort
    have h12 := (List.pairwise_cons.mp hsort).1 _ (List.mem_cons_self _ _)
    rcases h12 with hlt | ⟨-, hle⟩
    · rw [hd2, hd1] at hlt
      exact absurd hlt (lt_irrefl _)
    · have hle2 : ("n2" : String) ≤ "n1" := hle
      have hlt2 : ("n1" : String) < "n2" := String.lt_iff_toList_lt.mpr (by decide)
      exact absurd hlt2 (not_lt.mpr hle2)

/-- C4 (amended): get_active_neighbors returns exactly the stored cells of
the ring disk other than the queried cell that have active_users > 0; the
list is sorted ascending by the reported distance_km — the great-circle
distance rounded to one decimal — and distance ties keep the query (store)
order realised by the stable sort; they are not broken by cell id.  Stated
for a store whose cell ids are pairwise distinct (the primary key). -/
theorem get_active_neighbors_props (g : H3Grid) (s : Store) (h3_index : String)
    (rings : Nat)
    (hnd : (s.cells.map (fun c => c.h3_index)).Nodup) :
    (∀ info, info ∈ get_active_neighbors g s h3_index rings ↔
      ∃ c ∈ s.cells, c.h3_index ∈ g.grid_disk h3_index rings ∧
        c.h3_index ≠ h3_index ∧ 0 < c.active_users ∧
        info = mkNeighborInfo g (g.cell_to_latlng h3_index) c) ∧
    (∀ info ∈ get_active_neighbors g s h3_index rings,
      info.h3_index ≠ h3_index ∧ 0 < info.active_users) ∧
    ((get_active_neighbors g s h3_index rings).map
      (fun i => i.distance_km)).Sorted (· ≤ ·) ∧
    (get_active_neighbors g s h3_index rings).Pairwise
      (keyLex (fun i => i.distance_km)
        (fun i => (neighborInfos g s h3_index rings).indexOf i)) := by
  have hga : get_active_neighbors g s h3_index rings
      = (neighborInfos g s h3_index rings).insertionSort
          (fun a b => a.distance_km ≤ b.distance_km) := rfl
  have hmemiff : ∀ info, info ∈ neighborInfos g s h3_index rings ↔
      ∃ c ∈ s.cells, c.h3_index ∈ g.grid_disk h3_index rings ∧
        c.h3_index ≠ h3_index ∧ 0 < c.active_users ∧
        info = mkNeighborInfo g (g.cell_to_latlng h3_index) c := by
    intro info
    simp only [neighborInfos, List.mem_map, List.mem_filter, Bool.and_eq_true,
      decide_eq_true_eq, List.contains, List.elem_eq_mem, List.mem_filter,
      bne_iff_ne, ne_eq]
    constructor
    · rintro ⟨c, ⟨hc, ⟨hdisk, hne⟩, hact⟩, rfl⟩
      exact ⟨c, hc, hdisk, hne, hact, rfl⟩
    · rintro ⟨c, hc, hdisk, hne, hact, rfl⟩
      exact ⟨c, ⟨hc, ⟨hdisk, hne⟩, hact⟩, rfl⟩
  have hinf_nd : (neighborInfos g s h3_index rings).Nodup := by
    apply List.Nodup.of_map (fun i => i.h3_index)
    have heq : (neighborInfos g s h3_index rings).map (fun i => i.h3_index)
        = (s.cells.filter (fun c =>
            ((g.grid_disk h3_index rings).filter (fun n => n != h3_index)).contains
              c.h3_index && decide (0 < c.active_users))).map
          (fun c => c.h3_index) := by
      simp only [neighborInfos, List.map_map]
      rfl
    rw [heq]
    exact List.Nodup.sublist
      (List.Sublist.map _ (List.filter_sublist _)) hnd
  have hlex : ((neighborInfos g s h3_index rings).insertionSort
      (fun a b => a.distance_km ≤ b.distance_km)).Pairwise
        (keyLex (fun i => i.distance_km)
          (fun i => (neighborInfos g s h3_index rings).indexOf i)) :=
    pairwise_keyLex_insertionSort _ _ _
      (pairwise_indexOf_lt _ hinf_nd)
  refine ⟨?_, ?_, ?_, ?_⟩
  · intro info
    rw [hga, List.mem_insertionSort]
    exact hmemiff info
  · intro info hinfo
    rw [hga, List.mem_insertionSort] at hinfo
    obtain ⟨c, -, -, hne, hact, rfl⟩ := (hmemiff info).mp hinfo
    exact ⟨hne, hact⟩
  · rw [hga]
    exact List.pairwise_map.mpr (hlex.imp (fun h => keyLex_le _ _ h))
  · rw [hga]
    exact hlex

/-- Closed witness for C4 (amended): the two-neighbour store evaluated at
concrete inputs. -/
theorem get_active_neighbors_props_witness :
    (store4.cells.map (fun c => c.h3_index)).Nodup ∧
    ((∀ info, info ∈ get_active_neighbors grid4 store4 "c0" 1 ↔
      ∃ c ∈ store4.cells, c.h3_index ∈ grid4.grid_disk "c0" 1 ∧
        c.h3_index ≠ "c0" ∧ 0 < c.active_users ∧
        info = mkNeighborInfo grid4 (grid4.cell_to_latlng "c0") c) ∧
    (∀ info ∈ get_active_neighbors grid4 store4 "c0" 1,
      info.h3_index ≠ "c0" ∧ 0 < info.active_users) ∧
    ((get_active_neighbors grid4 store4 "c0" 1).map
      (fun i => i.distance_km)).Sorted (· ≤ ·) ∧
    (get_active_neighbors grid4 store4 "c0" 1).Pairwise
      (keyLex (fun i => i.distance_km)
        (fun i => (neighborInfos grid4 store4 "c0" 1).indexOf i))) :=
  ⟨by decide, get_active_neighbors_props grid4 store4 "c0" 1 (by decide)⟩

/-- C6 (counterexample): a location lying exactly on the polygon boundary
is excluded by find_locations_in_polygon — the within predicate keeps only
interior points — while the boundary-inclusive pointsInPolygon of the
specification includes it. -/
theorem boundary_point_excluded_counterexample :
    engine6.classify (toPoint loc6) () = Region.boundary ∧
    pointsInPolygonSpec engine6 [loc6] () = [loc6] ∧
    find_locations_in_polygon engine6 [loc6] () = [] := by
  refine ⟨by decide, by decide, by decide⟩

/-- C6 (amended): find_locations_in_polygon returns exactly the locations
whose coordinate lies strictly within the polygon (in its interior); a
location exactly on the boundary is excluded.  Stated for the data-model
invariant of pairwise-distinct location ids. -/
theorem find_locations_in_polygon_strictly_within {Poly : Type}
    (E : GeoEngine Poly) (locations : List LocationResponse) (polygon : Poly)
    (hids : (locations.map (fun l => l.id)).Nodup) :
    find_locations_in_polygon E locations polygon
      = locations.filter
          (fun l => E.classify (toPoint l) polygon == Region.interior) ∧
    ∀ l ∈ locations, E.classify (toPoint l) polygon = Region.boundary →
      l ∉ find_locations_in_polygon E locations polygon := by
  have hinj := List.inj_on_of_nodup_map hids
  have hmain : find_locations_in_polygon E locations polygon
      = locations.filter
          (fun l => E.classify (toPoint l) polygon == Region.interior) := by
    unfold find_locations_in_polygon
    apply List.filter_congr
    intro l hl
    simp only [List.contains, List.elem_eq_mem]
    by_cases hmem : l.id ∈ (sjoin_within E locations polygon).map (fun x => x.id)
    · rw [decide_eq_true hmem]
      obtain ⟨x, hx, hxid⟩ := List.mem_map.mp hmem
      have hxloc : x ∈ locations := (List.mem_filter.mp hx).1
      have hxP := (List.mem_filter.mp hx).2
      have hxl : x = l := hinj hxloc hl hxid
      exact (hxl ▸ hxP).symm
    · rw [decide_eq_false hmem]
      by_cases hP : (E.classify (toPoint l) polygon == Region.interior) = true
      · exact absurd
          (List.mem_map_of_mem (fun x => x.id) (List.mem_filter.mpr ⟨hl, hP⟩))
          hmem
      · exact (Bool.eq_false_iff.mpr hP).symm
  refine ⟨hmain, ?_⟩
  intro l hl hB hmem
  rw [hmain] at hmem
  have hP := (List.mem_filter.mp hmem).2
  rw [hB] at hP
  simp at hP

/-- Closed witness for C6 (amended): the boundary engine over a singleton
location list. -/
theorem find_locations_in_polygon_strictly_within_witness :
    (([loc6].map (fun l => l.id)).Nodup) ∧
    (find_locations_in_polygon engine6 [loc6] ()
      = [loc6].filter
          (fun l => engine6.classify (toPoint l) () == Region.interior) ∧
    ∀ l ∈ [loc6], engine6.classify (toPoint l) () = Region.boundary →
      l ∉ find_locations_in_polygon engine6 [loc6] ()) :=
  ⟨by decide, find_locations_in_polygon_strictly_within engine6 [loc6] () (by decide)⟩

/-- C7 (counterexample): on the empty location list the statistics dict
carries no spatial_distribution key at all, while the claim requires every
input, including the empty list, to yield a distribution label. -/
theorem statistics_empty_no_label_counterexample :
    (calculate_spatial_statistics geomZero []).spatial_distribution = none ∧
    calculate_spatial_statistics geomZero []
      = { total_locations := 0
          coverage_area_sqkm := 0
          density_per_sqkm := 0
          mean_nearest_neighbor_distance := 0
          spatial_distribution := none } :=
  ⟨rfl, rfl⟩

/-- C7 (amended): for every nonempty input, calculate_spatial_statistics
reports the count, a density that is zero whenever the coverage area is
zero, a mean nearest-neighbor distance that is zero for a single point, and
a distribution label that is clustered exactly when the mean distance is
below 500 (else dispersed), with no arithmetic failure; the empty input
instead returns the all-zero record without any label (see the
counterexample). -/
theorem spatial_statistics_props (geom : PlanarGeom)
    (locations : List LocationResponse) (st : SpatialStats)
    (hst : st = calculate_spatial_statistics geom locations)
    (hne : locations ≠ []) :
    st.total_locations = locations.length ∧
    (st.coverage_area_sqkm = 0 → st.density_per_sqkm = 0) ∧
    (locations.length = 1 → st.mean_nearest_neighbor_distance = 0) ∧
    (st.spatial_distribution = some "clustered" ∨
      st.spatial_distribution = some "dispersed") ∧
    (st.spatial_distribution = some "clustered" ↔
      st.mean_nearest_neighbor_distance < 500) := by
  subst hst
  unfold calculate_spatial_statistics
  rw [if_neg hne]
  refine ⟨rfl, ?_, ?_, ?_, ?_⟩
  · intro h
    show (if 0 < statsAreaSqkm geom locations then _ else 0) = 0
    rw [show statsAreaSqkm geom locations = 0 from h, if_neg (lt_irrefl 0)]
  · intro hlen
    obtain ⟨a, rfl⟩ := List.length_eq_one.mp hlen
    show statsMeanNN geom [a] = 0
    simp [statsMeanNN, statsDistances, statsPoints]
  · show some (if statsMeanNN geom locations < 500 then "clustered"
        else "dispersed") = some "clustered" ∨
      some (if statsMeanNN geom locations < 500 then "clustered"
        else "dispersed") = some "dispersed"
    by_cases h : statsMeanNN geom locations < 500
    · exact Or.inl (by rw [if_pos h])
    · exact Or.inr (by rw [if_neg h])
  · show some (if statsMeanNN geom locations < 500 then "clustered"
        else "dispersed") = some "clustered" ↔ statsMeanNN geom locations < 500
    by_cases h : statsMeanNN geom locations < 500
    · rw [if_pos h]
      exact iff_of_true rfl h
    · rw [if_neg h]
      exact iff_of_false (by simp) h

/-- Closed witness for C7 (amended): the three concrete locations under the
degenerate zero geometry. -/
theorem spatial_statistics_props_witness :
    (calculate_spatial_statistics geomZero locsW
        = calculate_spatial_statistics geomZero locsW ∧ locsW ≠ []) ∧
    ((calculate_spatial_statistics geomZero locsW).total_locations
        = locsW.length ∧
    ((calculate_spatial_statistics geomZero locsW).coverage_area_sqkm = 0 →
      (calculate_spatial_statistics geomZero locsW).density_per_sqkm = 0) ∧
    (locsW.length = 1 →
      (calculate_spatial_statistics geomZero locsW).mean_nearest_neighbor_distance
        = 0) ∧
    ((calculate_spatial_statistics geomZero locsW).spatial_distribution
        = some "clustered" ∨
      (calculate_spatial_statistics geomZero locsW).spatial_distribution
        = some "dispersed") ∧
    ((calculate_spatial_statistics geomZero locsW).spatial_distribution
        = some "clustered" ↔
      (calculate_spatial_statistics geomZero locsW).mean_nearest_neighbor_distance
        < 500)) :=
  ⟨⟨rfl, by simp [locsW]⟩,
    spatial_statistics_props geomZero locsW
      (calculate_spatial_statistics geomZero locsW) rfl (by simp [locsW])⟩

/-- For every label occurring in the label list there is a location paired
with it in the zip, provided the lists have equal length. -/
theorem exists_pair_of_mem_labels :
    ∀ (locations : List LocationResponse) (labels : List Int),
      labels.length = locations.length → ∀ c ∈ labels,
        ∃ l, (l, c) ∈ locations.zip labels := by
  intro locations
  induction locations with
  | nil =>
    intro labels hlen c hc
    rw [List.length_nil] at hlen
    rw [List.length_eq_zero.mp hlen] at hc
    cases hc
  | cons a as ih =>
    intro labels hlen c hc
    cases labels with
    | nil => cases hc
    | cons b bs =>
      rcases List.mem_cons.mp hc with rfl | hc2
      · exact ⟨a, by rw [List.zip_cons_cons]; exact List.mem_cons_self _ _⟩
      · obtain ⟨l, hl⟩ := ih bs (by simpa using hlen) c hc2
        exact ⟨l, by rw [List.zip_cons_cons]; exact List.mem_cons_of_mem _ hl⟩

/-- Under pairwise-distinct ids and one label per location, membership in
the member list of a cluster id is exactly carrying that label in the zip. -/
theorem mem_clusterMembers_iff (labels : List Int)
    (locations : List LocationResponse)
    (hlen : labels.length = locations.length)
    (hids : (locations.map (fun l => l.id)).Nodup)
    (cluster_id : Int) (l : LocationResponse) :
    l ∈ clusterMembers labels locations cluster_id ↔
      (l, cluster_id) ∈ locations.zip labels := by
  have hinj := List.inj_on_of_nodup_map hids
  unfold clusterMembers clusterPoints clusterTagged
  constructor
  · intro h
    obtain ⟨hl, hcon⟩ := List.mem_filter.mp h
    simp only [List.contains, List.elem_eq_mem, decide_eq_true_eq] at hcon
    obtain ⟨t, ht, htid⟩ := List.mem_map.mp hcon
    obtain ⟨ht2, htc⟩ := List.mem_filter.mp ht
    have htl : t.1 ∈ locations := (List.of_mem_zip ht2).1
    have hteq : t.1 = l := hinj htl hl htid
    have htt : t = (l, cluster_id) := by
      rcases t with ⟨t1, t2⟩
      simp only at hteq htc
      rw [Prod.mk.injEq]
      exact ⟨hteq, by simpa using htc⟩
    rw [← htt]
    exact ht2
  · intro h
    refine List.mem_filter.mpr ⟨(List.of_mem_zip h).1, ?_⟩
    simp only [List.contains, List.elem_eq_mem, decide_eq_true_eq]
    exact List.mem_map.mpr ⟨(l, cluster_id), List.mem_filter.mpr ⟨h, by simp⟩, rfl⟩

/-- C10: the clusters returned by find_clusters are pairwise disjoint (each
location is a member of at most one cluster), the cluster ids are distinct
and non-negative, and every returned cluster has at least one member.
Stated for an external DBSCAN labelling with one label per location and
labels ≥ -1, and the data-model invariant of pairwise-distinct location
ids. -/
theorem find_clusters_disjoint_props (geom : PlanarGeom) (labels : List Int)
    (locations : List LocationResponse) (eps_meters : ℚ) (min_samples : Nat)
    (hlen : labels.length = locations.length)
    (hids : (locations.map (fun l => l.id)).Nodup)
    (hlab : ∀ c ∈ labels, -1 ≤ c) :
    (find_clusters geom labels locations eps_meters min_samples).Pairwise
      (fun c1 c2 => ∀ l, l ∈ c1.locations → l ∉ c2.locations) ∧
    ((find_clusters geom labels locations eps_meters min_samples).map
      (fun c => c.cluster_id)).Nodup ∧
    (∀ c ∈ find_clusters geom labels locations eps_meters min_samples,
      0 ≤ c.cluster_id) ∧
    (∀ c ∈ find_clusters geom labels locations eps_meters min_samples,
      c.locations ≠ []) := by
  have hnd : locations.Nodup := List.Nodup.of_map _ hids
  have hzip_nd : ((locations.zip labels).map Prod.fst).Nodup := by
    rw [List.map_fst_zip _ _ (le_of_eq hlen.symm)]
    exact hnd
  have hpair_inj := List.inj_on_of_nodup_map hzip_nd
  unfold find_clusters
  by_cases hsz : locations.length < min_samples
  · rw [if_pos hsz]
    exact ⟨List.Pairwise.nil, List.nodup_nil,
      fun c hc => absurd hc (List.not_mem_nil c),
      fun c hc => absurd hc (List.not_mem_nil c)⟩
  rw [if_neg hsz]
  have hids_nodup : (labels.dedup.filter (fun cid => cid != -1)).Nodup :=
    List.Nodup.filter _ (List.nodup_dedup labels)
  refine ⟨?_, ?_, ?_, ?_⟩
  · refine List.pairwise_map.mpr (hids_nodup.imp ?_)
    intro c1 c2 hne l h1 h2
    have hm1 : (l, c1) ∈ locations.zip labels :=
      (mem_clusterMembers_iff labels locations hlen hids c1 l).mp h1
    have hm2 : (l, c2) ∈ locations.zip labels :=
      (mem_clusterMembers_iff labels locations hlen hids c2 l).mp h2
    have heq := hpair_inj hm1 hm2 rfl
    exact hne (congrArg Prod.snd heq)
  · have hmap : ((labels.dedup.filter (fun cid => cid != -1)).map
        (mkCluster geom labels locations)).map (fun c => c.cluster_id)
        = labels.dedup.filter (fun cid => cid != -1) := by
      rw [List.map_map]
      exact List.map_id _
    rw [hmap]
    exact hids_nodup
  · intro c hc
    obtain ⟨cid, hcid, rfl⟩ := List.mem_map.mp hc
    obtain ⟨hdedup, hne⟩ := List.mem_filter.mp hcid
    have h1 : -1 ≤ cid := hlab cid (List.mem_dedup.mp hdedup)
    have h2 : cid ≠ -1 := by simpa using hne
    show 0 ≤ cid
    omega
  · intro c hc
    obtain ⟨cid, hcid, rfl⟩ := List.mem_map.mp hc
    obtain ⟨hdedup, -⟩ := List.mem_filter.mp hcid
    obtain ⟨l, hl⟩ := exists_pair_of_mem_labels locations labels hlen cid
      (List.mem_dedup.mp hdedup)
    have hmem : l ∈ clusterMembers labels locations cid :=
      (mem_clusterMembers_iff labels locations hlen hids cid l).mpr hl
    exact List.ne_nil_of_mem hmem

/-- Closed witness for C10: three concrete locations, two labelled 0 and
one noise label -1. -/
theorem find_clusters_disjoint_props_witness :
    (([0, 0, -1] : List Int).length = locsW.length ∧
      (locsW.map (fun l => l.id)).Nodup ∧
      (∀ c ∈ ([0, 0, -1] : List Int), -1 ≤ c)) ∧
    ((find_clusters geomZero [0, 0, -1] locsW 500 2).Pairwise
      (fun c1 c2 => ∀ l, l ∈ c1.locations → l ∉ c2.locations) ∧
    ((find_clusters geomZero [0, 0, -1] locsW 500 2).map
      (fun c => c.cluster_id)).Nodup ∧
    (∀ c ∈ find_clusters geomZero [0, 0, -1] locsW 500 2, 0 ≤ c.cluster_id) ∧
    (∀ c ∈ find_clusters geomZero [0, 0, -1] locsW 500 2, c.locations ≠ [])) :=
  ⟨⟨by decide, by decide, by decide⟩,
    find_clusters_disjoint_props geomZero [0, 0, -1] locsW 500 2
      (by decide) (by decide) (by decide)⟩

end TapIn
